import Mathlib

/-!
Verification of the `pyaifchunk` IFF chunk reader (`core_chunk.py`).

The underlying file object is modelled as a `ByteStream`: an immutable byte
list together with a cursor position.  `Chunk` mirrors the fields of the
Python `Chunk` class (`_file`, `_align`, `_bigendian`, `_inclheader`,
`_closed`, `_name`, `_data_size`, `_data_start`, `_data_end`, `_pad`), and
each method is translated as a function on `Chunk`, returning the updated
reader together with its result.  Exceptions (`EOFError`, `ValueError`,
`OSError`) become an `Except ChunkErr` result.
-/

/-- Errors raised by the chunk reader, mirroring the Python exception types
used in `core_chunk.py`. -/
inductive ChunkErr where
  | eofError
  | valueError
  | osError
deriving DecidableEq, Repr

/-- A seekable byte stream: the file-like object the reader wraps.
`data` is the whole underlying byte sequence, `pos` the cursor. -/
structure ByteStream where
  data : List Nat
  pos : Nat
deriving DecidableEq, Repr

/-- `file.read(n)`: return up to `n` bytes from the cursor and advance it by
the number of bytes actually returned. -/
def ByteStream.read (s : ByteStream) (n : Nat) : List Nat × ByteStream :=
  let bs := (s.data.drop s.pos).take n
  (bs, ⟨s.data, s.pos + bs.length⟩)

/-- `file.seek(n)`: move the cursor to absolute position `n`. -/
def ByteStream.seek (s : ByteStream) (n : Nat) : ByteStream :=
  ⟨s.data, n⟩

/-- `file.tell()`: the current cursor position. -/
def ByteStream.tell (s : ByteStream) : Nat :=
  s.pos

/-- `int.from_bytes(bs, byteorder=big)`. -/
def fromBytesBE (bs : List Nat) : Nat :=
  bs.foldl (fun acc b => acc * 256 + b) 0

/-- `int.from_bytes(bs, byteorder)` with configurable byte order. -/
def intFromBytes (bs : List Nat) (bigendian : Bool) : Nat :=
  if bigendian then fromBytesBE bs else fromBytesBE bs.reverse

/-- The state of a `Chunk` reader: the wrapped stream, the three
configuration flags, the `closed` flag, and the header-derived fields. -/
structure Chunk where
  file : ByteStream
  align : Bool
  bigendian : Bool
  inclheader : Bool
  closed : Bool
  name : List Nat
  data_size : Nat
  data_start : Nat
  data_end : Nat
  pad : Nat
deriving DecidableEq, Repr

/-- `Chunk.__init__`: read the 8-byte header, split it into the 4-byte id and
the 4-byte size field, decode the size, adjust for `inclheader`, record
`data_start`/`data_end`, and account for the alignment pad byte. -/
def Chunk.init (file : ByteStream) (align bigendian inclheader : Bool) :
    Except ChunkErr Chunk :=
  let r := file.read 8
  let header := r.1
  let f := r.2
  if header.length < 8 then .error .eofError else
  let name := header.take 4
  let size_field := (header.drop 4).take 4
  let size_value := intFromBytes size_field bigendian
  match (if inclheader then
           (if size_value < 8 then Except.error ChunkErr.valueError
            else Except.ok (size_value - 8))
         else Except.ok size_value : Except ChunkErr Nat) with
  | .error e => .error e
  | .ok data_size =>
    let data_start := f.tell
    let p := if align = true ∧ data_size % 2 ≠ 0 then 1 else 0
    .ok { file := f, align := align, bigendian := bigendian,
          inclheader := inclheader, closed := false, name := name,
          data_size := data_size, data_start := data_start,
          data_end := data_start + data_size + p, pad := p }

/-- `Chunk.getname`. -/
def Chunk.getname (c : Chunk) : List Nat :=
  c.name

/-- `Chunk.getsize`. -/
def Chunk.getsize (c : Chunk) : Nat :=
  c.data_size

/-- `Chunk.read(size=-1)`: bounded read, clamped to the bytes remaining
before `data_end`. -/
def Chunk.read (c : Chunk) (size : Int) : Except ChunkErr (List Nat × Chunk) :=
  if c.closed then .error .osError else
  let current_pos := c.file.tell
  let remaining : Int := (c.data_end : Int) - (current_pos : Int)
  if remaining ≤ 0 then .ok ([], c) else
  let size := if size < 0 ∨ size > remaining then remaining else size
  let r := c.file.read size.toNat
  .ok (r.1, { c with file := r.2 })

/-- `Chunk.seek(pos, whence=0)`: bounded seek with clamping to
`[data_start, data_end]`; returns the new position relative to
`data_start`. -/
def Chunk.seek (c : Chunk) (pos : Int) (whence : Int) :
    Except ChunkErr (Int × Chunk) :=
  if c.closed then .error .osError else
  match (if whence = 0 then Except.ok ((c.data_start : Int) + pos)
         else if whence = 1 then Except.ok ((c.file.tell : Int) + pos)
         else if whence = 2 then Except.ok ((c.data_end : Int) + pos)
         else Except.error ChunkErr.valueError : Except ChunkErr Int) with
  | .error e => .error e
  | .ok target =>
    let target := if target < (c.data_start : Int) then (c.data_start : Int) else target
    let target := if target > (c.data_end : Int) then (c.data_end : Int) else target
    .ok (target - (c.data_start : Int), { c with file := c.file.seek target.toNat })

/-- `Chunk.tell`: current position relative to `data_start`. -/
def Chunk.tell (c : Chunk) : Except ChunkErr Int :=
  if c.closed then .error .osError
  else .ok ((c.file.tell : Int) - (c.data_start : Int))

/-- `Chunk.skip`: if not closed, seek the stream to `data_end` and mark the
reader closed. -/
def Chunk.skip (c : Chunk) : Chunk :=
  if c.closed then c
  else { c with file := c.file.seek c.data_end, closed := true }

/-- `Chunk.close`: convenience alias for `skip`. -/
def Chunk.close (c : Chunk) : Chunk :=
  c.skip

/-- `Chunk.isatty`: always `false`. -/
def Chunk.isatty (_ : Chunk) : Bool :=
  false

/-! ### Helper notions used in the statements -/

/-- The 4 size-field bytes of the header that `Chunk.init` reads from `file`
(bytes 4..7 at the stream's current position). -/
def sizeFieldAt (file : ByteStream) : List Nat :=
  (((file.data.drop file.pos).take 8).drop 4).take 4

/-- The decoded 32-bit size value `Chunk.init` obtains from `file`. -/
def sizeValueAt (file : ByteStream) (bigendian : Bool) : Nat :=
  intFromBytes (sizeFieldAt file) bigendian

/-- The resolved payload size for the given `inclheader` setting. -/
def dataSizeAt (file : ByteStream) (bigendian inclheader : Bool) : Nat :=
  if inclheader then sizeValueAt file bigendian - 8 else sizeValueAt file bigendian

/-- The pad-byte count for alignment flag `a` and payload size `ds`. -/
def padOf (a : Bool) (ds : Nat) : Nat :=
  if a = true ∧ ds % 2 ≠ 0 then 1 else 0

/-- The seek target the code computes for the given whence value
(0: from `data_start`, 1: from the current position, 2: from `data_end`). -/
def seekTargetOf (c : Chunk) (pos whence : Int) : Int :=
  if whence = 0 then (c.data_start : Int) + pos
  else if whence = 1 then (c.file.tell : Int) + pos
  else (c.data_end : Int) + pos

/-- Clamping of a seek target into `[data_start, data_end]`. -/
def clampTarget (c : Chunk) (t : Int) : Int :=
  max (c.data_start : Int) (min (c.data_end : Int) t)

/-- The readers reachable from `c` through successful `read` and `seek`
calls. -/
inductive Reachable : Chunk → Chunk → Prop where
  | refl (c : Chunk) : Reachable c c
  | read (c c₁ c₂ : Chunk) (n : Int) (bs : List Nat) :
      Reachable c c₁ → c₁.read n = .ok (bs, c₂) → Reachable c c₂
  | seek (c c₁ c₂ : Chunk) (pos whence r : Int) :
      Reachable c c₁ → c₁.seek pos whence = .ok (r, c₂) → Reachable c c₂

/-- Equality of reader results is decidable, so witnesses can be checked by
evaluation. -/
instance {ε α : Type} [DecidableEq ε] [DecidableEq α] :
    DecidableEq (Except ε α)
  | .error e, .error f =>
    if h : e = f then .isTrue (by rw [h]) else .isFalse (by simp [h])
  | .error _, .ok _ => .isFalse (by simp)
  | .ok _, .error _ => .isFalse (by simp)
  | .ok a, .ok b =>
    if h : a = b then .isTrue (by rw [h]) else .isFalse (by simp [h])

/-- A concrete reader state used by the witnesses: a `CHNK` chunk with the
10-byte payload `0123456789`, cursor at `data_start`. -/
def sampleChunk : Chunk :=
  { file := ⟨[67, 72, 78, 75, 0, 0, 0, 10,
      48, 49, 50, 51, 52, 53, 54, 55, 56, 57], 8⟩,
    align := true, bigendian := true, inclheader := false, closed := false,
    name := [67, 72, 78, 75], data_size := 10, data_start := 8,
    data_end := 18, pad := 0 }

/-- The sample chunk after its payload has been fully read. -/
def sampleChunkRead : Chunk :=
  { sampleChunk with file := ⟨sampleChunk.file.data, 18⟩ }

/-! ### Characterisation of construction -/

/-- When fewer than 8 bytes remain, construction fails with `eofError`. -/
lemma init_eof_eq (file : ByteStream) (a b i : Bool)
    (h : file.data.length - file.pos < 8) :
    Chunk.init file a b i = .error .eofError := by
  have hlen : ((file.data.drop file.pos).take 8).length < 8 := by
    simp [List.length_take, List.length_drop]
    omega
  simp [Chunk.init, ByteStream.read, hlen]
  intro h8
  exfalso
  omega

/-- When at least 8 bytes remain and the size field is acceptable,
construction succeeds and every field is determined. -/
lemma init_ok_eq (file : ByteStream) (a b i : Bool)
    (h8 : 8 ≤ file.data.length - file.pos)
    (hv : i = true → 8 ≤ sizeValueAt file b) :
    Chunk.init file a b i = .ok
      { file := ⟨file.data, file.pos + 8⟩, align := a, bigendian := b,
        inclheader := i, closed := false,
        name := ((file.data.drop file.pos).take 8).take 4,
        data_size := dataSizeAt file b i,
        data_start := file.pos + 8,
        data_end := file.pos + 8 + dataSizeAt file b i
          + padOf a (dataSizeAt file b i),
        pad := padOf a (dataSizeAt file b i) } := by
  have hlen : ((file.data.drop file.pos).take 8).length = 8 := by
    simp [List.length_take, List.length_drop]
    omega
  cases i with
  | false =>
    simp [Chunk.init, ByteStream.read, ByteStream.tell, hlen, dataSizeAt,
      sizeValueAt, sizeFieldAt, intFromBytes, padOf]
  | true =>
    have hv8 : ¬ sizeValueAt file b < 8 := by
      have := hv rfl
      omega
    simp only [sizeValueAt, sizeFieldAt, intFromBytes] at hv8
    simp [Chunk.init, ByteStream.read, ByteStream.tell, hlen, dataSizeAt,
      sizeValueAt, sizeFieldAt, intFromBytes, padOf, hv8]

/-- When at least 8 bytes remain, `inclheader` is set and the decoded size
value is below 8, construction fails with `valueError`. -/
lemma init_valueError_eq (file : ByteStream) (a b : Bool)
    (h8 : 8 ≤ file.data.length - file.pos)
    (hv : sizeValueAt file b < 8) :
    Chunk.init file a b true = .error .valueError := by
  have hlen : ((file.data.drop file.pos).take 8).length = 8 := by
    simp [List.length_take, List.length_drop]
    omega
  simp only [sizeValueAt, sizeFieldAt] at hv
  simp [Chunk.init, ByteStream.read, ByteStream.tell, hlen, hv]

/-! ### Claim theorems -/

/-- C1: the claim fails on the code. With alignment enabled over the 7-byte
payload `ABCDEFG` followed by a pad byte `0`, `read` with the default size
argument returns all 8 bytes up to `data_end` — the pad byte included —
because `read` clamps to `data_end`, which counts the pad byte. -/
theorem read_returns_pad_byte :
    ((Chunk.init ⟨[79, 68, 68, 89, 0, 0, 0, 7,
        65, 66, 67, 68, 69, 70, 71, 0], 0⟩ true true false).bind
      (fun c => c.read (-1))).map Prod.fst =
    .ok [65, 66, 67, 68, 69, 70, 71, 0] := by
  rfl

/-- C6: construction on a stream offering fewer than 8 bytes fails with the
end-of-stream error and yields no reader; with at least 8 bytes available,
any constructed reader has consumed exactly 8 bytes, leaving the stream at
`data_start`, and with `inclheader = false` construction always succeeds. -/
theorem init_header_consumption (file : ByteStream) (a b i : Bool) :
    (file.data.length - file.pos < 8 →
      Chunk.init file a b i = .error .eofError) ∧
    (8 ≤ file.data.length - file.pos →
      (∀ c, Chunk.init file a b i = .ok c →
        c.file.data = file.data ∧ c.file.pos = file.pos + 8 ∧
        c.data_start = file.pos + 8) ∧
      (i = false → ∃ c, Chunk.init file a b i = .ok c)) := by
  refine ⟨fun h => init_eof_eq file a b i h, fun h8 => ⟨?_, ?_⟩⟩
  · intro c hc
    by_cases hi : i = true ∧ sizeValueAt file b < 8
    · rw [hi.1, init_valueError_eq file a b h8 hi.2] at hc
      cases hc
    · have hv : i = true → 8 ≤ sizeValueAt file b := by
        intro h
        by_contra h'
        exact hi ⟨h, by omega⟩
      rw [init_ok_eq file a b i h8 hv] at hc
      injection hc with hc
      subst hc
      exact ⟨rfl, rfl, rfl⟩
  · intro hi
    subst hi
    exact ⟨_, init_ok_eq file a b false h8 (by simp)⟩

/-- Witness for C6 at a concrete 5-byte stream. -/
theorem init_header_consumption_witness :
    Chunk.init ⟨[1, 2, 3, 4, 5], 0⟩ true true false = .error .eofError :=
  (init_header_consumption ⟨[1, 2, 3, 4, 5], 0⟩ true true false).1 (by decide)

/-- C7: with `inclheader = true`, a decoded size value below 8 makes
construction fail with the format error, and otherwise `data_size` is the
decoded value minus 8; with `inclheader = false`, construction succeeds with
`data_size` equal to the decoded value. -/
theorem init_size_semantics (file : ByteStream) (a b : Bool)
    (h8 : 8 ≤ file.data.length - file.pos) :
    (sizeValueAt file b < 8 →
      Chunk.init file a b true = .error .valueError) ∧
    (8 ≤ sizeValueAt file b →
      ∃ c, Chunk.init file a b true = .ok c ∧
        c.data_size = sizeValueAt file b - 8) ∧
    (∃ c, Chunk.init file a b false = .ok c ∧
      c.data_size = sizeValueAt file b) := by
  refine ⟨fun hv => init_valueError_eq file a b h8 hv,
    fun hv => ⟨_, init_ok_eq file a b true h8 (fun _ => hv), ?_⟩,
    ⟨_, init_ok_eq file a b false h8 (by simp), ?_⟩⟩
  · simp [dataSizeAt]
  · simp [dataSizeAt]

/-- Witness for C7 at a concrete header whose size field decodes to 5. -/
theorem init_size_semantics_witness :
    Chunk.init ⟨[1, 2, 3, 4, 0, 0, 0, 5], 0⟩ true true true =
      .error .valueError :=
  (init_size_semantics ⟨[1, 2, 3, 4, 0, 0, 0, 5], 0⟩ true true
    (by decide)).1 (by decide)

/-- C9: with `inclheader = true` a decoded size value of exactly 8 is
accepted: construction succeeds, `data_size = 0` and, for any alignment
setting, `data_end = data_start`. -/
theorem init_inclusive_size_eight (file : ByteStream) (a b : Bool)
    (h8 : 8 ≤ file.data.length - file.pos)
    (hv : sizeValueAt file b = 8) :
    ∃ c, Chunk.init file a b true = .ok c ∧
      c.data_size = 0 ∧ c.data_end = c.data_start := by
  refine ⟨_, init_ok_eq file a b true h8 (fun _ => by omega), ?_, ?_⟩
  · simp [dataSizeAt, hv]
  · simp [dataSizeAt, hv, padOf]

/-- Witness for C9 at a concrete header-inclusive chunk of declared size 8. -/
theorem init_inclusive_size_eight_witness :
    ∃ c, Chunk.init ⟨[1, 2, 3, 4, 0, 0, 0, 8], 0⟩ true true true = .ok c ∧
      c.data_size = 0 ∧ c.data_end = c.data_start :=
  init_inclusive_size_eight ⟨[1, 2, 3, 4, 0, 0, 0, 8], 0⟩ true true
    (by decide) (by decide)

/-! ### Characterisation of `read` -/

/-- At or beyond `data_end`, `read` returns the empty byte sequence and
leaves the reader unchanged. -/
lemma read_at_end (c : Chunk) (size : Int) (hopen : c.closed = false)
    (h : (c.data_end : Int) - (c.file.tell : Int) ≤ 0) :
    c.read size = .ok ([], c) := by
  simp [Chunk.read, hopen, h]

/-- Before `data_end`, a negative or too-large size argument is clamped:
exactly `data_end - tell` bytes are requested from the underlying stream. -/
lemma read_clamped (c : Chunk) (size : Int) (hopen : c.closed = false)
    (h : 0 < (c.data_end : Int) - (c.file.tell : Int))
    (hs : size < 0 ∨ (c.data_end : Int) - (c.file.tell : Int) < size) :
    c.read size =
      .ok ((c.file.read (c.data_end - c.file.tell)).1,
        { c with file := (c.file.read (c.data_end - c.file.tell)).2 }) := by
  have h' : ¬ ((c.data_end : Int) - (c.file.tell : Int) ≤ 0) := by omega
  have hs' : size < 0 ∨ (c.data_end : Int) - (c.file.tell : Int) < size := hs
  simp only [Chunk.read, hopen, Bool.false_eq_true, if_false, h', if_true]
  rw [if_pos (show size < 0 ∨ size > (c.data_end : Int) - (c.file.tell : Int) by omega)]
  rw [Int.toNat_sub]

/-- C5: on an open reader, when `remaining = data_end - tell` is not
positive, `read` returns the empty byte sequence without error; when
`remaining` is positive and the size argument is negative (the omitted
default is `-1`) or exceeds `remaining`, exactly `remaining` bytes are
requested from the underlying stream. -/
theorem read_remaining_clamp (c : Chunk) (size : Int)
    (hopen : c.closed = false) :
    ((c.data_end : Int) - (c.file.tell : Int) ≤ 0 →
      c.read size = .ok ([], c)) ∧
    (0 < (c.data_end : Int) - (c.file.tell : Int) →
      (size < 0 ∨ (c.data_end : Int) - (c.file.tell : Int) < size) →
      c.read size =
        .ok ((c.file.read (c.data_end - c.file.tell)).1,
          { c with file := (c.file.read (c.data_end - c.file.tell)).2 })) :=
  ⟨read_at_end c size hopen, read_clamped c size hopen⟩

/-- Witness for C5: the default-size read on `sampleChunk` requests exactly
the 10 remaining payload bytes. -/
theorem read_remaining_clamp_witness :
    sampleChunk.read (-1) =
      .ok ((sampleChunk.file.read (sampleChunk.data_end - sampleChunk.file.tell)).1,
        { sampleChunk with
          file := (sampleChunk.file.read (sampleChunk.data_end - sampleChunk.file.tell)).2 }) :=
  (read_remaining_clamp sampleChunk (-1) (by decide)).2 (by decide) (by decide)

/-! ### The even-length round trip -/

/-- C2: over a stream holding a 4-byte id, a size field declaring `P.length`
and then the even-length payload `P` (with anything after it), construction
succeeds, a `read` with the default size argument returns exactly `P`, and a
second `read` on the resulting reader returns the empty byte sequence. -/
theorem read_roundtrip_even (nm sz P rest : List Nat)
    (hnm : nm.length = 4) (hsz : sz.length = 4)
    (hdec : fromBytesBE sz = P.length) (heven : P.length % 2 = 0) :
    ∃ c c', Chunk.init ⟨nm ++ sz ++ P ++ rest, 0⟩ true true false = .ok c ∧
      c.read (-1) = .ok (P, c') ∧ c'.read (-1) = .ok ([], c') := by
  have hassoc : nm ++ sz ++ P ++ rest = (nm ++ sz) ++ (P ++ rest) := by
    simp [List.append_assoc]
  rw [hassoc]
  have hlen8 : (nm ++ sz).length = 8 := by simp [hnm, hsz]
  have h1 : ((nm ++ sz) ++ (P ++ rest)).take 8 = nm ++ sz := by
    rw [← hlen8]
    exact List.take_left _ _
  have h2 : ((nm ++ sz) ++ (P ++ rest)).drop 8 = P ++ rest := by
    rw [← hlen8]
    exact List.drop_left _ _
  have h8 : 8 ≤ ((nm ++ sz) ++ (P ++ rest)).length - 0 := by
    simp [hnm, hsz]
    omega
  have hsf : sizeFieldAt ⟨(nm ++ sz) ++ (P ++ rest), 0⟩ = sz := by
    simp only [sizeFieldAt, List.drop_zero]
    rw [h1, List.drop_left' hnm, ← hsz, List.take_length]
  have hds : dataSizeAt ⟨(nm ++ sz) ++ (P ++ rest), 0⟩ true false = P.length := by
    simp only [dataSizeAt, sizeValueAt, intFromBytes, hsf]
    simp [hdec]
  have hpad : padOf true P.length = 0 := by
    simp [padOf, heven]
  refine ⟨Chunk.mk ⟨(nm ++ sz) ++ (P ++ rest), 8⟩ true true false false nm
      P.length 8 (8 + P.length) 0,
    Chunk.mk ⟨(nm ++ sz) ++ (P ++ rest), 8 + P.length⟩ true true false false
      nm P.length 8 (8 + P.length) 0, ?_, ?_, ?_⟩
  · rw [init_ok_eq ⟨(nm ++ sz) ++ (P ++ rest), 0⟩ true true false h8 (by simp),
      hds, hpad, List.drop_zero, h1, List.take_left' hnm]
    norm_num
  · by_cases hP : P = []
    · subst hP
      rw [read_at_end _ (-1) rfl (by simp [ByteStream.tell])]
      simp
    · have hpos : 0 < P.length := List.length_pos.mpr hP
      rw [read_clamped _ (-1) rfl
        (by simp only [ByteStream.tell]; push_cast; omega)
        (Or.inl (by norm_num))]
      simp only [ByteStream.read, ByteStream.tell, Nat.add_sub_cancel_left,
        h2, List.take_left]
  · rw [read_at_end _ (-1) rfl (by simp [ByteStream.tell])]

/-! ### Frame lemmas and reachability -/

/-- A successful `read` changes nothing but the stream cursor. -/
lemma read_frame (c : Chunk) (n : Int) (bs : List Nat) (c' : Chunk)
    (h : c.read n = .ok (bs, c')) :
    c'.name = c.name ∧ c'.data_size = c.data_size ∧
    c'.data_start = c.data_start ∧ c'.data_end = c.data_end ∧
    c'.align = c.align ∧ c'.bigendian = c.bigendian ∧
    c'.inclheader = c.inclheader ∧ c'.pad = c.pad ∧
    c'.closed = c.closed ∧ c'.file.data = c.file.data := by
  simp only [Chunk.read] at h
  split at h
  · cases h
  · split at h
    · simp only [Except.ok.injEq, Prod.mk.injEq] at h
      rw [← h.2]
      exact ⟨rfl, rfl, rfl, rfl, rfl, rfl, rfl, rfl, rfl, rfl⟩
    · simp only [Except.ok.injEq, Prod.mk.injEq] at h
      rw [← h.2]
      exact ⟨rfl, rfl, rfl, rfl, rfl, rfl, rfl, rfl, rfl, rfl⟩

/-- A successful `seek` changes nothing but the stream cursor. -/
lemma seek_frame (c : Chunk) (pos whence : Int) (r : Int) (c' : Chunk)
    (h : c.seek pos whence = .ok (r, c')) :
    c'.name = c.name ∧ c'.data_size = c.data_size ∧
    c'.data_start = c.data_start ∧ c'.data_end = c.data_end ∧
    c'.align = c.align ∧ c'.bigendian = c.bigendian ∧
    c'.inclheader = c.inclheader ∧ c'.pad = c.pad ∧
    c'.closed = c.closed ∧ c'.file.data = c.file.data := by
  simp only [Chunk.seek] at h
  split at h
  · cases h
  · split at h
    · cases h
    · simp only [Except.ok.injEq, Prod.mk.injEq] at h
      rw [← h.2]
      exact ⟨rfl, rfl, rfl, rfl, rfl, rfl, rfl, rfl, rfl, rfl⟩

/-- `skip` changes nothing but the stream cursor and the `closed` flag. -/
lemma skip_frame (c : Chunk) :
    (c.skip).name = c.name ∧ (c.skip).data_size = c.data_size ∧
    (c.skip).data_start = c.data_start ∧ (c.skip).data_end = c.data_end ∧
    (c.skip).align = c.align ∧ (c.skip).bigendian = c.bigendian ∧
    (c.skip).inclheader = c.inclheader ∧ (c.skip).pad = c.pad ∧
    (c.skip).file.data = c.file.data := by
  unfold Chunk.skip
  split
  · exact ⟨rfl, rfl, rfl, rfl, rfl, rfl, rfl, rfl, rfl⟩
  · exact ⟨rfl, rfl, rfl, rfl, rfl, rfl, rfl, rfl, rfl⟩

/-- Reachability preserves every field except the stream cursor. -/
lemma reachable_frame (c c' : Chunk) (hr : Reachable c c') :
    c'.name = c.name ∧ c'.data_size = c.data_size ∧
    c'.data_start = c.data_start ∧ c'.data_end = c.data_end ∧
    c'.align = c.align ∧ c'.bigendian = c.bigendian ∧
    c'.inclheader = c.inclheader ∧ c'.pad = c.pad ∧
    c'.closed = c.closed ∧ c'.file.data = c.file.data := by
  induction hr with
  | refl => exact ⟨rfl, rfl, rfl, rfl, rfl, rfl, rfl, rfl, rfl, rfl⟩
  | read c₁ c₂ n bs hr h ih =>
    have hf := read_frame c₁ n bs c₂ h
    exact ⟨hf.1.trans ih.1, hf.2.1.trans ih.2.1, hf.2.2.1.trans ih.2.2.1,
      hf.2.2.2.1.trans ih.2.2.2.1, hf.2.2.2.2.1.trans ih.2.2.2.2.1,
      hf.2.2.2.2.2.1.trans ih.2.2.2.2.2.1,
      hf.2.2.2.2.2.2.1.trans ih.2.2.2.2.2.2.1,
      hf.2.2.2.2.2.2.2.1.trans ih.2.2.2.2.2.2.2.1,
      hf.2.2.2.2.2.2.2.2.1.trans ih.2.2.2.2.2.2.2.2.1,
      hf.2.2.2.2.2.2.2.2.2.trans ih.2.2.2.2.2.2.2.2.2⟩
  | seek c₁ c₂ pos whence r hr h ih =>
    have hf := seek_frame c₁ pos whence r c₂ h
    exact ⟨hf.1.trans ih.1, hf.2.1.trans ih.2.1, hf.2.2.1.trans ih.2.2.1,
      hf.2.2.2.1.trans ih.2.2.2.1, hf.2.2.2.2.1.trans ih.2.2.2.2.1,
      hf.2.2.2.2.2.1.trans ih.2.2.2.2.2.1,
      hf.2.2.2.2.2.2.1.trans ih.2.2.2.2.2.2.1,
      hf.2.2.2.2.2.2.2.1.trans ih.2.2.2.2.2.2.2.1,
      hf.2.2.2.2.2.2.2.2.1.trans ih.2.2.2.2.2.2.2.2.1,
      hf.2.2.2.2.2.2.2.2.2.trans ih.2.2.2.2.2.2.2.2.2⟩

/-- `padOf` written with the remainder spelled as `% 2 = 1`. -/
lemma padOf_eq_mod_one (a : Bool) (ds : Nat) :
    padOf a ds = if a = true ∧ ds % 2 = 1 then 1 else 0 := by
  rcases Nat.mod_two_eq_zero_or_one ds with h | h <;> simp [padOf, h]

/-- Skipping an already-closed reader is the identity. -/
lemma skip_of_closed (c : Chunk) (h : c.closed = true) : c.skip = c := by
  simp [Chunk.skip, h]

/-- C3: on any open reader obtained from construction by a sequence of
successful `read`/`seek` calls, `skip` marks the reader closed and moves the
underlying stream to exactly `data_start + data_size + pad`, where `pad` is
1 iff alignment is enabled and `data_size` is odd; a further `skip` (or its
alias `close`) on an already-closed reader changes nothing. -/
theorem skip_to_data_end (file : ByteStream) (a b i : Bool) (c c' : Chunk)
    (h : Chunk.init file a b i = .ok c) (hr : Reachable c c')
    (hopen : c'.closed = false) :
    (c'.skip).closed = true ∧
    (c'.skip).file.pos = c'.data_start + c'.data_size +
      (if a = true ∧ c'.data_size % 2 = 1 then 1 else 0) ∧
    (∀ c₂ : Chunk, c₂.closed = true → c₂.skip = c₂ ∧ c₂.close = c₂) := by
  have hframe := reachable_frame c c' hr
  have hend : c'.data_end = c'.data_start + c'.data_size +
      (if a = true ∧ c'.data_size % 2 = 1 then 1 else 0) := by
    by_cases hi : i = true ∧ sizeValueAt file b < 8
    · rw [hi.1, init_valueError_eq file a b ?_ hi.2] at h
      · cases h
      · by_contra h8
        rw [init_eof_eq file a b true (by omega)] at h
        cases h
    · have hv : i = true → 8 ≤ sizeValueAt file b := by
        intro hti
        by_contra hlt
        exact hi ⟨hti, by omega⟩
      by_cases h8 : 8 ≤ file.data.length - file.pos
      · rw [init_ok_eq file a b i h8 hv] at h
        injection h with h
        subst h
        rw [hframe.2.2.2.1, hframe.2.1, hframe.2.2.1, ← padOf_eq_mod_one]
      · rw [init_eof_eq file a b i (by omega)] at h
        cases h
  refine ⟨?_, ?_, ?_⟩
  · simp [Chunk.skip, hopen]
  · simp only [Chunk.skip, hopen, Bool.false_eq_true, if_false, ByteStream.seek]
    exact hend
  · intro c₂ hc₂
    have h2 : c₂.skip = c₂ := by simp [Chunk.skip, hc₂]
    exact ⟨h2, h2⟩

/-- Witness for C3: skipping the freshly constructed sample chunk lands at
`8 + 10 + 0 = 18`. -/
theorem skip_to_data_end_witness :
    (sampleChunk.skip).closed = true ∧
    (sampleChunk.skip).file.pos = sampleChunk.data_start +
      sampleChunk.data_size +
      (if true = true ∧ sampleChunk.data_size % 2 = 1 then 1 else 0) :=
  ⟨(skip_to_data_end ⟨[67, 72, 78, 75, 0, 0, 0, 10,
      48, 49, 50, 51, 52, 53, 54, 55, 56, 57], 0⟩ true true false
      sampleChunk sampleChunk rfl (Reachable.refl sampleChunk)
      rfl).1,
   (skip_to_data_end ⟨[67, 72, 78, 75, 0, 0, 0, 10,
      48, 49, 50, 51, 52, 53, 54, 55, 56, 57], 0⟩ true true false
      sampleChunk sampleChunk rfl (Reachable.refl sampleChunk)
      rfl).2.1⟩

/-- C8: after `skip` (or `close`, its alias) the reader is closed; every
`read`, `seek` or `tell` on it fails with the closed-resource error, while
`getname` and `getsize` still return the original values, and a further
`skip`/`close` leaves the closed reader unchanged. -/
theorem closed_ops (c : Chunk) :
    (c.skip).closed = true ∧ (c.close).closed = true ∧
    (∀ size, (c.skip).read size = .error .osError) ∧
    (∀ pos whence, (c.skip).seek pos whence = .error .osError) ∧
    (c.skip).tell = .error .osError ∧
    (c.skip).getname = c.getname ∧ (c.skip).getsize = c.getsize ∧
    (c.skip).skip = c.skip ∧ (c.skip).close = c.skip := by
  have hcl : (c.skip).closed = true := by
    unfold Chunk.skip
    split
    · assumption
    · rfl
  refine ⟨hcl, hcl, fun size => ?_, fun pos whence => ?_, ?_, ?_, ?_, ?_, ?_⟩
  · simp [Chunk.read, hcl]
  · simp [Chunk.seek, hcl]
  · simp [Chunk.tell, hcl]
  · exact (skip_frame c).1
  · exact (skip_frame c).2.1
  · exact skip_of_closed (c.skip) hcl
  · exact skip_of_closed (c.skip) hcl

/-- C10: every operation that can return an updated reader (`read`, `seek`,
`skip`, `close`) preserves the identifier, `data_size`, `data_start`,
`data_end`, the three configuration flags and the stream's contents; `read`
and `seek` also preserve the `closed` flag, so only `skip`/`close` may change
it, and only the stream position is mutated outside the reader. -/
theorem ops_frame (c : Chunk) :
    (∀ size bs c', c.read size = .ok (bs, c') →
      c'.name = c.name ∧ c'.data_size = c.data_size ∧
      c'.data_start = c.data_start ∧ c'.data_end = c.data_end ∧
      c'.align = c.align ∧ c'.bigendian = c.bigendian ∧
      c'.inclheader = c.inclheader ∧ c'.pad = c.pad ∧
      c'.closed = c.closed ∧ c'.file.data = c.file.data) ∧
    (∀ pos whence r c', c.seek pos whence = .ok (r, c') →
      c'.name = c.name ∧ c'.data_size = c.data_size ∧
      c'.data_start = c.data_start ∧ c'.data_end = c.data_end ∧
      c'.align = c.align ∧ c'.bigendian = c.bigendian ∧
      c'.inclheader = c.inclheader ∧ c'.pad = c.pad ∧
      c'.closed = c.closed ∧ c'.file.data = c.file.data) ∧
    ((c.skip).name = c.name ∧ (c.skip).data_size = c.data_size ∧
      (c.skip).data_start = c.data_start ∧ (c.skip).data_end = c.data_end ∧
      (c.skip).align = c.align ∧ (c.skip).bigendian = c.bigendian ∧
      (c.skip).inclheader = c.inclheader ∧ (c.skip).pad = c.pad ∧
      (c.skip).file.data = c.file.data) ∧
    c.close = c.skip :=
  ⟨fun size bs c' h => read_frame c size bs c' h,
   fun pos whence r c' h => seek_frame c pos whence r c' h,
   skip_frame c, rfl⟩

/-- C4: on an open reader, `seek` resolves the target as
`data_start + offset` (whence 0), current position + offset (whence 1) or
`data_end + offset` (whence 2), clamps it into `[data_start, data_end]`
without error, moves the stream there and returns `target - data_start`;
any other whence value fails with the invalid-seek-origin error. -/
theorem seek_clamps (c : Chunk) (pos whence : Int) (hopen : c.closed = false)
    (hle : c.data_start ≤ c.data_end) :
    ((whence = 0 ∨ whence = 1 ∨ whence = 2) →
      c.seek pos whence = .ok
        (clampTarget c (seekTargetOf c pos whence) - (c.data_start : Int),
          { c with file :=
              c.file.seek (clampTarget c (seekTargetOf c pos whence)).toNat })) ∧
    (whence ≠ 0 → whence ≠ 1 → whence ≠ 2 →
      c.seek pos whence = .error .valueError) := by
  constructor
  · rintro (rfl | rfl | rfl) <;>
      simp only [Chunk.seek, hopen, Bool.false_eq_true, if_false,
        seekTargetOf] <;>
      norm_num <;>
      refine ⟨?_, ?_⟩ <;>
      first
      | · rw [clampTarget, max_def, min_def]
          split_ifs <;> omega
      | · congr 2
          rw [clampTarget, max_def, min_def]
          split_ifs <;> omega
  · intro h0 h1 h2
    simp [Chunk.seek, hopen, h0, h1, h2]

/-- Witness for C4: an out-of-range `seek(100, 0)` on the sample chunk is
clamped to `data_end = 18` and returns `10`. -/
theorem seek_clamps_witness :
    sampleChunk.seek 100 0 =
      .ok (10, { sampleChunk with file := sampleChunk.file.seek 18 }) := by
  have h := (seek_clamps sampleChunk 100 0 rfl (by decide)).1 (Or.inl rfl)
  rw [h]
  decide

/-- Witness for C2 on the `CHNK` chunk carrying the payload `0123456789`. -/
theorem read_roundtrip_even_witness :
    ∃ c c', Chunk.init ⟨[67, 72, 78, 75] ++ [0, 0, 0, 10] ++
        [48, 49, 50, 51, 52, 53, 54, 55, 56, 57] ++ [], 0⟩ true true false =
        .ok c ∧
      c.read (-1) = .ok ([48, 49, 50, 51, 52, 53, 54, 55, 56, 57], c') ∧
      c'.read (-1) = .ok ([], c') :=
  read_roundtrip_even [67, 72, 78, 75] [0, 0, 0, 10]
    [48, 49, 50, 51, 52, 53, 54, 55, 56, 57] [] rfl rfl rfl rfl

/-- Witness for C8 on the sample chunk. -/
theorem closed_ops_witness :
    (sampleChunk.skip).closed = true ∧
    (sampleChunk.skip).read (-1) = .error .osError :=
  ⟨(closed_ops sampleChunk).1, (closed_ops sampleChunk).2.2.1 (-1)⟩

/-- Witness for C10: a full `read` on the sample chunk preserves every field
but the stream cursor. -/
theorem ops_frame_witness :
    sampleChunkRead.name = sampleChunk.name ∧
    sampleChunkRead.data_size = sampleChunk.data_size ∧
    sampleChunkRead.data_start = sampleChunk.data_start ∧
    sampleChunkRead.data_end = sampleChunk.data_end ∧
    sampleChunkRead.align = sampleChunk.align ∧
    sampleChunkRead.bigendian = sampleChunk.bigendian ∧
    sampleChunkRead.inclheader = sampleChunk.inclheader ∧
    sampleChunkRead.pad = sampleChunk.pad ∧
    sampleChunkRead.closed = sampleChunk.closed ∧
    sampleChunkRead.file.data = sampleChunk.file.data :=
  (ops_frame sampleChunk).1 (-1) [48, 49, 50, 51, 52, 53, 54, 55, 56, 57]
    sampleChunkRead (by decide)
